import Mathlib

/-!
Verification of the go-chat-api WebSocket hub
=============================================

A shallow embedding of the connection hub of `go-chat-api`
(`internal/websocket`: the `Hub` type with its `Run` loop,
`BroadcastMessage`, `SendToUser`, `SendToUsername`, `SendToRoom`,
`GetConnectedUsers`, `IsUserOnline`, and the `Client` read/write loops).

The Go program serializes every mutation of the registry through the
hub's `Run` goroutine (register / unregister / broadcast arrive on
channels and are processed one at a time), so the hub is embedded as a
sequential state machine: one `World` value holds the hub's three
indices plus the state of every client's outbound channel, and each
channel-delivered command becomes a function `World → World`.

Go channel semantics that the claims depend on are modelled explicitly:
a buffered channel of capacity `cap` holding a FIFO list of frames, a
`closed` flag, and a `closeCount`.  Sending on a closed channel or
closing an already-closed channel panics in Go; both set the `panicked`
flag of the `World` (and a double close also shows up as
`closeCount ≥ 2`).  A non-blocking `select`-with-`default` send
succeeds exactly when the buffer has room and the channel is open.

`json.Marshal` of the fixed `map[string]interface{}` literals the hub
builds cannot fail, so serialized payloads are embedded as the `Frame`
inductive (one constructor per outbound wire shape) rather than as byte
strings.
-/

namespace ChatApi

/-- Embeds `models.Message` as used by the hub: the persisted chat message that
is fanned out.  Only its identity matters to the hub (it is wrapped and
forwarded, never inspected), so the fields are the ones `handleMessage`
fills in from a `MessageRequest`. -/
structure Message where
  sender : String
  content : String
  recipient : String
  roomID : String
deriving DecidableEq, Repr

/-- One serialized outbound payload, one constructor per JSON shape the
hub produces.  `connection` carries the `"status"`, `"user_id"` and
`"username"` fields of the registration confirmation in that order. -/
inductive Frame where
  | connection (status userId username : String)
  | message (m : Message)
  | directMessage (m : Message)
  | pong (status : String)
  | error (e : String)
deriving DecidableEq, Repr

/-- The `Client` struct, restricted to what the hub and the loops touch:
the immutable identity fields `UserID` and `Username`, and the state of
the buffered `send` channel (`make(chan []byte, 256)` in `ServeWS`; the
capacity is kept as a field so claims about "capacity C" are general).
`closeCount` counts executed `close(c.send)` statements. -/
structure Client where
  UserID : String
  Username : String
  cap : Nat
  send : List Frame
  closed : Bool
  closeCount : Nat
deriving DecidableEq, Repr

/-- Result of a non-blocking `select { case ch <- v: ... default: ... }`
on a client's send channel. -/
inductive SendResult where
  | sent (c : Client)
  | full
  | panic
deriving Repr

/-- Non-blocking send on `c.send`: on a closed channel the send case is
ready and panics; otherwise it succeeds iff the buffer has room. -/
def trySend (c : Client) (f : Frame) : SendResult :=
  if c.closed then .panic
  else if c.send.length < c.cap then .sent { c with send := c.send ++ [f] }
  else .full

/-- Model of `close(c.send)`: sets the closed flag, bumps the close counter, and
reports whether this was a double close (a Go panic). -/
def closeChan (c : Client) : Client × Bool :=
  ({ c with closed := true, closeCount := c.closeCount + 1 }, c.closed)

/-! ### Association-list maps mirroring Go maps
`insertA` overwrites any existing binding of the key, `eraseA` removes
the key unconditionally; lookups see at most one binding. -/

def lookupA {α β : Type} [DecidableEq α] (k : α) : List (α × β) → Option β
  | [] => none
  | (k2, v) :: rest => if k2 = k then some v else lookupA k rest

def eraseA {α β : Type} [DecidableEq α] (k : α) : List (α × β) → List (α × β)
  | [] => []
  | (k2, v) :: rest =>
    if k2 = k then eraseA k rest else (k2, v) :: eraseA k rest

def insertA {α β : Type} [DecidableEq α] (k : α) (v : β) (m : List (α × β)) : List (α × β) :=
  (k, v) :: eraseA k m

/-- The set `h.clients` is `map[*Client]bool` in the source; it is used only as a set of
client handles, embedded as a duplicate-free list of client ids. -/
def insertS (id : Nat) (s : List Nat) : List Nat :=
  if id ∈ s then s else s ++ [id]

def eraseS (id : Nat) : List Nat → List Nat
  | [] => []
  | x :: rest => if x = id then eraseS id rest else x :: eraseS id rest

/-- The `Hub`'s three indices (`clients`, `userClients`,
`usernameClients`).  The channels of the Go struct are the commands of
the state machine, not data. -/
structure Hub where
  clients : List Nat
  userClients : List (String × Nat)
  usernameClients : List (String × Nat)
deriving DecidableEq, Repr

/-- The whole observable state: the hub's indices, every client's
channel state (keyed by client id — the `*Client` pointer identity),
and whether any goroutine has panicked. -/
structure World where
  hub : Hub
  conns : List (Nat × Client)
  panicked : Bool
deriving DecidableEq, Repr

def World.conn (w : World) (id : Nat) : Option Client :=
  lookupA id w.conns

def World.setConn (w : World) (id : Nat) (c : Client) : World :=
  { w with conns := insertA id c w.conns }

/-! ### The `Run` loop cases -/

/-- The `register` case of `Hub.Run`: add the client to all three
indices (plain map writes — an existing binding of the same `UserID` or
`Username` is overwritten, the superseded client is *not* unregistered),
then try to enqueue the connection confirmation; if the new client's
channel is already full, close its channel and delete it from
`h.clients` only (the two identity maps keep their bindings).
The confirmation sets `"user_id"` from `client.Username`. -/
def registerStep (w : World) (id : Nat) : World :=
  match w.conn id with
  | none => w
  | some c =>
    let hub1 : Hub :=
      { clients := insertS id w.hub.clients
        userClients := insertA c.UserID id w.hub.userClients
        usernameClients := insertA c.Username id w.hub.usernameClients }
    let fr := Frame.connection "connected" c.Username c.Username
    match trySend c fr with
    | .sent c2 => { w with hub := hub1, conns := insertA id c2 w.conns }
    | .full =>
      let (c2, dbl) := closeChan c
      { hub := { hub1 with clients := eraseS id hub1.clients }
        conns := insertA id c2 w.conns
        panicked := w.panicked || dbl }
    | .panic => { w with hub := hub1, panicked := true }

/-- The `unregister` case of `Hub.Run`: guarded by membership in
`h.clients`; removes the client from all three indices (deleting the
`UserID` and `Username` keys unconditionally) and closes its channel. -/
def unregisterStep (w : World) (id : Nat) : World :=
  if id ∈ w.hub.clients then
    match w.conn id with
    | none => w
    | some c =>
      let hub1 : Hub :=
        { clients := eraseS id w.hub.clients
          userClients := eraseA c.UserID w.hub.userClients
          usernameClients := eraseA c.Username w.hub.usernameClients }
      let (c2, dbl) := closeChan c
      { hub := hub1, conns := insertA id c2 w.conns
        panicked := w.panicked || dbl }
  else w

/-- Backpressure eviction inside the `broadcast` case: `close` the slow
client's channel, delete it from `h.clients` and from `h.userClients` —
the source does not delete it from `h.usernameClients`. -/
def broadcastEvict (w : World) (id : Nat) : World :=
  match w.conn id with
  | none => w
  | some c =>
    let (c2, dbl) := closeChan c
    { hub := { clients := eraseS id w.hub.clients
               userClients := eraseA c.UserID w.hub.userClients
               usernameClients := w.hub.usernameClients }
      conns := insertA id c2 w.conns
      panicked := w.panicked || dbl }

/-- One client's turn in the `broadcast` loop body: non-blocking send,
eviction on a full channel. -/
def broadcastOne (f : Frame) (w : World) (id : Nat) : World :=
  match w.conn id with
  | none => w
  | some c =>
    match trySend c f with
    | .sent c2 => w.setConn id c2
    | .full => broadcastEvict w id
    | .panic => { w with panicked := true }

/-- The `broadcast` case of `Hub.Run`: iterate over the clients present
in `h.clients` when the message is taken off the channel (the `range`
snapshot; only the currently visited client is ever deleted during the
loop, so iterating the initial key set is exact). -/
def broadcastStep (w : World) (f : Frame) : World :=
  w.hub.clients.foldl (broadcastOne f) w

/-! ### Hub public operations -/

/-- Embeds `Hub.BroadcastMessage`: wrap the message and hand it to the `Run`
loop over the unbuffered `broadcast` channel.  In this sequential model
the loop is at its `select`, so the handoff succeeds and the broadcast
case runs. -/
def BroadcastMessage (w : World) (m : Message) : World :=
  broadcastStep w (Frame.message m)

/-- Embeds `Hub.SendToUser`: look up `h.userClients[userID]`; absent means
`false` with no state change; present means a non-blocking enqueue of a
`direct_message` frame, and on a full channel the client is handed to
the `unregister` channel (processed by `Run`) and `false` returned. -/
def SendToUser (w : World) (userID : String) (m : Message) : World × Bool :=
  match lookupA userID w.hub.userClients with
  | none => (w, false)
  | some id =>
    match w.conn id with
    | none => (w, false)
    | some c =>
      match trySend c (Frame.directMessage m) with
      | .sent c2 => (w.setConn id c2, true)
      | .full => (unregisterStep w id, false)
      | .panic => ({ w with panicked := true }, false)

/-- Embeds `Hub.SendToUsername`: the same contract keyed by
`h.usernameClients`. -/
def SendToUsername (w : World) (username : String) (m : Message) : World × Bool :=
  match lookupA username w.hub.usernameClients with
  | none => (w, false)
  | some id =>
    match w.conn id with
    | none => (w, false)
    | some c =>
      match trySend c (Frame.directMessage m) with
      | .sent c2 => (w.setConn id c2, true)
      | .full => (unregisterStep w id, false)
      | .panic => ({ w with panicked := true }, false)

/-- Embeds `Hub.SendToRoom`: the source ignores `roomID` and calls
`BroadcastMessage`. -/
def SendToRoom (w : World) (roomID : String) (m : Message) : World :=
  BroadcastMessage w m

/-- Embeds `Hub.GetConnectedUsers`: the keys of `h.usernameClients`. -/
def GetConnectedUsers (w : World) : List String :=
  w.hub.usernameClients.map (fun p => p.1)

/-- Embeds `Hub.IsUserOnline`: membership in `h.usernameClients`. -/
def IsUserOnline (w : World) (username : String) : Bool :=
  (lookupA username w.hub.usernameClients).isSome

/-! ### The client's read loop (`client.go`) -/

/-- The decoded `IncomingMessage` (one JSON frame from the client);
`recipient` and `room_id` are `omitempty`, so an absent field is the
empty string. -/
structure IncomingMessage where
  type : String
  content : String
  recipient : String
  roomID : String
deriving DecidableEq, Repr

/-- Embeds `Client.handlePing`: non-blocking enqueue of the pong frame onto
the client's *own* channel; if the channel is full, `close(c.send)` —
with no unregister. -/
def handlePing (w : World) (id : Nat) : World :=
  match w.conn id with
  | none => w
  | some c =>
    match trySend c (Frame.pong "ok") with
    | .sent c2 => w.setConn id c2
    | .full =>
      let (c2, dbl) := closeChan c
      { w with conns := insertA id c2 w.conns, panicked := w.panicked || dbl }
    | .panic => { w with panicked := true }

/-- Embeds `Client.handleMessage`: builds a `MessageRequest` with
`Sender := c.Username`, hands it to `chatService.SendMessage` (the
external persistence collaborator — embedded as the `persist` argument,
the result that call returned), and fans out only on success:
`SendToRoom` when a room is given, else `SendToUsername(recipient)`
followed by `SendToUsername(c.Username)` when a recipient is given,
else `BroadcastMessage`.  On persistence failure, a typed error frame
is enqueued non-blockingly on the client's own channel (closing it when
full), and nothing else happens. -/
def handleMessage (w : World) (id : Nat) (msg : IncomingMessage)
    (persist : Except String Message) : World :=
  match w.conn id with
  | none => w
  | some c =>
    match persist with
    | .error _ =>
      match trySend c (Frame.error "Failed to save message") with
      | .sent c2 => w.setConn id c2
      | .full =>
        let (c2, dbl) := closeChan c
        { w with conns := insertA id c2 w.conns, panicked := w.panicked || dbl }
      | .panic => { w with panicked := true }
    | .ok saved =>
      if msg.roomID ≠ "" then
        SendToRoom w msg.roomID saved
      else if msg.recipient ≠ "" then
        let w1 := (SendToUsername w msg.recipient saved).1
        (SendToUsername w1 c.Username saved).1
      else
        BroadcastMessage w saved

/-- The type dispatch of `Client.readPump` on one successfully decoded
frame: `"message"` goes to `handleMessage`, `"ping"` to `handlePing`,
anything else is only logged (`default` case) and the loop continues. -/
def handleIncoming (w : World) (id : Nat) (msg : IncomingMessage)
    (persist : Except String Message) : World :=
  if msg.type = "message" then handleMessage w id msg persist
  else if msg.type = "ping" then handlePing w id
  else w

/-! ### The client's write loop (`Client.writePump`)

The write loop alternates between taking one frame off `c.send` and a
ping-timer tick; ordering (claim C6) only concerns the message case, so
the loop is embedded as a machine over the channel buffer `q` and the
transport output `out`: an `enq` action is a successful producer-side
send (the channel appends FIFO), and a `write` action is one iteration
of the message case — take the first frame, then coalesce the
`n := len(c.send)` frames still buffered into the same physical write,
in channel order. -/

/-- Take `n` frames off the front of the buffer (the coalescing loop
`for i := 0; i < n; i++ { w.Write(<-c.send) }`). -/
def drainN : Nat → List Frame → List Frame × List Frame
  | 0, q => ([], q)
  | _ + 1, [] => ([], [])
  | n + 1, f :: q =>
    let (taken, rest) := drainN n q
    (f :: taken, rest)

/-- One iteration of the message case of `writePump`: `none` when the
buffer is empty (the loop would block); otherwise the list of frames
written to the transport in this physical write, in order, and the
remaining buffer. -/
def writeIteration (q : List Frame) : Option (List Frame × List Frame) :=
  match q with
  | [] => none
  | f :: rest =>
    let (taken, rest2) := drainN rest.length rest
    some (f :: taken, rest2)

/-- An event visible to the write loop's channel: a producer enqueue or
one write-loop iteration. -/
inductive WAction where
  | enq (f : Frame)
  | write
deriving Repr

/-- Channel buffer plus transport history (flattened: the frames as
they reach the transport, in order). -/
structure WState where
  q : List Frame
  out : List Frame
deriving DecidableEq, Repr

def wstep (s : WState) : WAction → WState
  | .enq f => { s with q := s.q ++ [f] }
  | .write =>
    match writeIteration s.q with
    | none => s
    | some (batch, rest) => { q := rest, out := s.out ++ batch }

def wrun (s : WState) : List WAction → WState
  | [] => s
  | a :: as2 => wrun (wstep s a) as2

/-- The frames enqueued by a schedule, in order. -/
def enqueued : List WAction → List Frame
  | [] => []
  | .enq f :: as2 => f :: enqueued as2
  | .write :: as2 => enqueued as2

/-! ## Lemmas about the map and set helpers -/

theorem lookupA_insertA_self {α β : Type} [DecidableEq α] (k : α) (v : β)
    (m : List (α × β)) : lookupA k (insertA k v m) = some v := by
  simp [insertA, lookupA]

theorem lookupA_eraseA_ne {α β : Type} [DecidableEq α] {q k : α} (h : q ≠ k)
    (m : List (α × β)) : lookupA q (eraseA k m) = lookupA q m := by
  induction m with
  | nil => rfl
  | cons p rest ih =>
    obtain ⟨a, b⟩ := p
    by_cases hak : a = k
    · subst hak
      have : a ≠ q := fun hq => h (hq ▸ rfl)
      simp [eraseA, lookupA, this, ih]
    · simp only [eraseA, if_neg hak, lookupA]
      by_cases haq : a = q
      · simp [haq]
      · simp [haq, ih]

theorem lookupA_eraseA_self {α β : Type} [DecidableEq α] (k : α)
    (m : List (α × β)) : lookupA k (eraseA k m) = none := by
  induction m with
  | nil => rfl
  | cons p rest ih =>
    obtain ⟨a, b⟩ := p
    by_cases hak : a = k
    · simp [eraseA, hak, ih]
    · simp [eraseA, hak, lookupA, ih]

theorem lookupA_insertA_ne {α β : Type} [DecidableEq α] {q k : α} (h : q ≠ k)
    (v : β) (m : List (α × β)) : lookupA q (insertA k v m) = lookupA q m := by
  have hk : k ≠ q := fun hq => h (hq ▸ rfl)
  simp [insertA, lookupA, hk, lookupA_eraseA_ne h]

theorem mem_insertS {a id : Nat} {s : List Nat} :
    a ∈ insertS id s ↔ a = id ∨ a ∈ s := by
  by_cases h : id ∈ s
  · simp only [insertS, if_pos h]
    constructor
    · exact Or.inr
    · rintro (rfl | ha)
      · exact h
      · exact ha
  · simp only [insertS, if_neg h, List.mem_append, List.mem_singleton]
    tauto

theorem mem_eraseS {a id : Nat} (h : a ≠ id) {s : List Nat} :
    a ∈ eraseS id s ↔ a ∈ s := by
  induction s with
  | nil => rfl
  | cons x rest ih =>
    by_cases hx : x = id
    · subst hx
      simp [eraseS, ih, h]
    · simp [eraseS, hx, ih]

theorem not_mem_eraseS (id : Nat) (s : List Nat) : id ∉ eraseS id s := by
  induction s with
  | nil => simp [eraseS]
  | cons x rest ih =>
    by_cases hx : x = id
    · simp [eraseS, hx, ih]
    · simp [eraseS, hx, ih]
      exact fun hq => hx (hq ▸ rfl)

theorem conn_setConn_self (w : World) (id : Nat) (c : Client) :
    (w.setConn id c).conn id = some c := by
  simp [World.setConn, World.conn, lookupA_insertA_self]

theorem conn_setConn_ne {id2 id : Nat} (h : id2 ≠ id) (w : World) (c : Client) :
    (w.setConn id c).conn id2 = w.conn id2 := by
  simp [World.setConn, World.conn, lookupA_insertA_ne h]

/-! ## Claim C1 — duplicate-identity registration -/

/-- Client 1: first connection of user `u1` / display name `alice`. -/
def c1old : Client := ⟨"u1", "alice", 4, [], false, 0⟩

/-- Client 2: a second connection of the same identity. -/
def c1new : Client := ⟨"u1", "alice", 4, [], false, 0⟩

/-- Empty hub with both client values allocated. -/
def w1start : World := ⟨⟨[], [], []⟩, [(1, c1old), (2, c1new)], false⟩

/-- C1 (counterexample): registering client 2 under the same `userID`
and `displayName` as the already-registered client 1 does *not*
deregister or tear down client 1 — after the second registration,
client 1 is still in the `clients` set, its outbound queue is still
open, and `close` was never called on it, while the identity maps
already point at client 2.  This falsifies the claim that the prior
connection is fully deregistered and its queue closed. -/
theorem C1_counterexample :
    1 ∈ (registerStep (registerStep w1start 1) 2).hub.clients ∧
    ((registerStep (registerStep w1start 1) 2).conn 1).map Client.closed
      = some false ∧
    ((registerStep (registerStep w1start 1) 2).conn 1).map Client.closeCount
      = some 0 ∧
    lookupA "u1" (registerStep (registerStep w1start 1) 2).hub.userClients
      = some 2 := by decide

/-- C1 (amended): `register` overwrites the `userID` and `displayName`
indices last-writer-wins — after `registerStep w id`, both indices map
the client's identity to `id` — but it performs no teardown of any
superseded connection: every other client's channel state is untouched
and every other client already in the `clients` set stays in it, so a
prior connection under the same identity retains a live entry in the
connection-handle set. -/
theorem C1_register_supersedes (w : World) (id id2 : Nat) (c : Client)
    (hc : w.conn id = some c) (hne : id2 ≠ id) :
    lookupA c.UserID (registerStep w id).hub.userClients = some id ∧
    lookupA c.Username (registerStep w id).hub.usernameClients = some id ∧
    (registerStep w id).conn id2 = w.conn id2 ∧
    (id2 ∈ w.hub.clients → id2 ∈ (registerStep w id).hub.clients) := by
  unfold registerStep
  simp only [hc]
  cases hts : trySend c (Frame.connection "connected" c.Username c.Username) with
  | sent c2 =>
    refine ⟨lookupA_insertA_self .., lookupA_insertA_self .., ?_, ?_⟩
    · simp [World.conn, lookupA_insertA_ne hne]
    · intro h
      exact mem_insertS.mpr (Or.inr h)
  | full =>
    refine ⟨lookupA_insertA_self .., lookupA_insertA_self .., ?_, ?_⟩
    · simp [closeChan, World.conn, lookupA_insertA_ne hne]
    · intro h
      simp only [closeChan]
      exact (mem_eraseS hne).mpr (mem_insertS.mpr (Or.inr h))
  | panic =>
    exact ⟨lookupA_insertA_self .., lookupA_insertA_self .., rfl,
      fun h => mem_insertS.mpr (Or.inr h)⟩

/-- Witness for `C1_register_supersedes` at the concrete duplicate
registration of `C1_counterexample`: registering client 2 while
client 1 (same identity) is registered leaves client 1 untouched and
in the `clients` set. -/
theorem C1_register_supersedes_witness :
    lookupA "u1" (registerStep (registerStep w1start 1) 2).hub.userClients
        = some 2 ∧
    lookupA "alice" (registerStep (registerStep w1start 1) 2).hub.usernameClients
        = some 2 ∧
    (registerStep (registerStep w1start 1) 2).conn 1
        = (registerStep w1start 1).conn 1 ∧
    (1 ∈ (registerStep w1start 1).hub.clients →
      1 ∈ (registerStep (registerStep w1start 1) 2).hub.clients) := by
  have h := C1_register_supersedes (registerStep w1start 1) 2 1 c1new
    (by decide) (by decide)
  exact h

/-! ## Claim C2 — cross-index consistency -/

/-- A client registered in all three indices whose outbound queue
(capacity 1) is already full. -/
def c2full : Client := ⟨"u1", "alice", 1, [Frame.pong "ok"], false, 0⟩

/-- Consistent hub state holding only that client. -/
def w2pre : World := ⟨⟨[1], [("u1", 1)], [("alice", 1)]⟩, [(1, c2full)], false⟩

/-- C2 (code bug): when a broadcast evicts the full client, the
eviction removes it from `clients` and `userClients` and closes its
queue, but leaves it in `usernameClients` — afterwards the connection
is visible in the display-name index, absent from the other two, and
not live (its queue closed), violating the cross-index consistency the
spec (and the code's own `unregister` case, which deletes all three
entries) requires. -/
theorem C2_broadcast_eviction_inconsistent :
    lookupA "alice"
        (broadcastStep w2pre (Frame.message ⟨"bob", "hi", "", ""⟩)).hub.usernameClients
      = some 1 ∧
    1 ∉ (broadcastStep w2pre (Frame.message ⟨"bob", "hi", "", ""⟩)).hub.clients ∧
    lookupA "u1"
        (broadcastStep w2pre (Frame.message ⟨"bob", "hi", "", ""⟩)).hub.userClients
      = none ∧
    ((broadcastStep w2pre (Frame.message ⟨"bob", "hi", "", ""⟩)).conn 1).map
        Client.closed = some true := by decide

/-! ## Claim C3 — SendToUser contract -/

/-- C3: the full `SendToUser` contract.  With no connection registered
for `userID`, the call returns `false` and the world — registry and
every connection's queue — is exactly unchanged.  With a registered,
live connection: if its queue has room, exactly one `direct_message`
frame is appended to that queue and the call returns `true`; if the
queue (capacity `C`) is full, the call returns `false` after handing
the client to the `unregister` case, which removes it from all three
indices and closes its queue exactly once (`closeCount` goes up by one,
and no panic flag is raised). -/
theorem C3_SendToUser_contract (w : World) (uid : String) (m : Message) :
    (lookupA uid w.hub.userClients = none → SendToUser w uid m = (w, false)) ∧
    (∀ id c, lookupA uid w.hub.userClients = some id → w.conn id = some c →
      c.closed = false →
      (c.send.length < c.cap →
        SendToUser w uid m
          = (w.setConn id { c with send := c.send ++ [Frame.directMessage m] },
             true)) ∧
      (¬ c.send.length < c.cap → id ∈ w.hub.clients →
        SendToUser w uid m = (unregisterStep w id, false) ∧
        ((unregisterStep w id).conn id).map Client.closed = some true ∧
        ((unregisterStep w id).conn id).map Client.closeCount
          = some (c.closeCount + 1) ∧
        id ∉ (unregisterStep w id).hub.clients ∧
        lookupA c.UserID (unregisterStep w id).hub.userClients = none ∧
        lookupA c.Username (unregisterStep w id).hub.usernameClients = none ∧
        (unregisterStep w id).panicked = w.panicked)) := by
  constructor
  · intro h
    simp [SendToUser, h]
  · intro id c hid hc hopen
    constructor
    · intro hcap
      simp [SendToUser, hid, hc, trySend, hopen, hcap]
    · intro hcap hmem
      have hts : trySend c (Frame.directMessage m) = .full := by
        simp [trySend, hopen, hcap]
      have hunreg : unregisterStep w id =
          ⟨⟨eraseS id w.hub.clients, eraseA c.UserID w.hub.userClients,
            eraseA c.Username w.hub.usernameClients⟩,
           insertA id { c with closed := true, closeCount := c.closeCount + 1 }
             w.conns,
           w.panicked⟩ := by
        unfold unregisterStep
        simp [hmem, hc, closeChan, hopen]
      refine ⟨by simp [SendToUser, hid, hc, hts], ?_, ?_, ?_, ?_, ?_, ?_⟩ <;>
        rw [hunreg]
      · simp [World.conn, lookupA_insertA_self]
      · simp [World.conn, lookupA_insertA_self]
      · exact not_mem_eraseS id _
      · exact lookupA_eraseA_self ..
      · exact lookupA_eraseA_self ..

/-- Empty hub: nobody is online. -/
def w3off : World := ⟨⟨[], [], []⟩, [], false⟩

/-- A registered client with room in its queue. -/
def c3ok : Client := ⟨"u1", "alice", 4, [], false, 0⟩

def w3ok : World := ⟨⟨[1], [("u1", 1)], [("alice", 1)]⟩, [(1, c3ok)], false⟩

/-- A registered client whose queue (capacity 1) is full. -/
def c3full : Client := ⟨"u1", "alice", 1, [Frame.pong "ok"], false, 0⟩

def w3full : World := ⟨⟨[1], [("u1", 1)], [("alice", 1)]⟩, [(1, c3full)], false⟩

def m3 : Message := ⟨"bob", "hi", "", ""⟩

/-- Witness for `C3_SendToUser_contract` at three concrete inputs:
offline recipient, recipient with queue room, recipient with a full
queue. -/
theorem C3_SendToUser_contract_witness :
    SendToUser w3off "u1" m3 = (w3off, false) ∧
    SendToUser w3ok "u1" m3
      = (w3ok.setConn 1 { c3ok with send := [Frame.directMessage m3] }, true) ∧
    SendToUser w3full "u1" m3 = (unregisterStep w3full 1, false) ∧
    ((unregisterStep w3full 1).conn 1).map Client.closeCount = some 1 ∧
    1 ∉ (unregisterStep w3full 1).hub.clients ∧
    (unregisterStep w3full 1).panicked = false := by
  have h1 := (C3_SendToUser_contract w3off "u1" m3).1 (by decide)
  have h2 := ((C3_SendToUser_contract w3ok "u1" m3).2 1 c3ok
    (by decide) (by decide) (by decide)).1 (by decide)
  have h3 := ((C3_SendToUser_contract w3full "u1" m3).2 1 c3full
    (by decide) (by decide) (by decide)).2 (by decide) (by decide)
  exact ⟨h1, by simpa using h2, h3.1, h3.2.2.1, h3.2.2.2.1, h3.2.2.2.2.2.2⟩

/-! ## Claim C4 — broadcast delivery -/

/-- One turn of the broadcast loop only touches the channel state of
the client it visits. -/
theorem broadcastOne_conn_ne (f : Frame) {id2 id : Nat} (h : id2 ≠ id)
    (w : World) : (broadcastOne f w id).conn id2 = w.conn id2 := by
  cases hc : lookupA id w.conns with
  | none => simp [broadcastOne, World.conn, hc]
  | some c =>
    cases hts : trySend c f with
    | sent c2 =>
      simp [broadcastOne, World.conn, hc, hts, World.setConn,
        lookupA_insertA_ne h]
    | full =>
      simp [broadcastOne, World.conn, hc, hts, broadcastEvict, closeChan,
        lookupA_insertA_ne h]
    | panic => simp [broadcastOne, World.conn, hc, hts]

/-- The broadcast loop leaves every client outside the visited list
untouched. -/
theorem foldl_broadcastOne_not_mem (f : Frame) :
    ∀ (L : List Nat) (w : World) {id : Nat}, id ∉ L →
      (L.foldl (broadcastOne f) w).conn id = w.conn id := by
  intro L
  induction L with
  | nil => intro w id _; rfl
  | cons x rest ih =>
    intro w id h
    have hx : id ≠ x := fun he => h (he ▸ List.mem_cons_self ..)
    have hrest : id ∉ rest := fun hr => h (List.mem_cons_of_mem _ hr)
    simp only [List.foldl_cons]
    rw [ih _ hrest, broadcastOne_conn_ne f hx]

/-- Every visited client whose channel is open and has room receives
exactly the broadcast frame, appended once to its queue, regardless of
what happens to the other visited clients. -/
theorem foldl_broadcastOne_delivers (f : Frame) :
    ∀ (L : List Nat) (w : World) (id : Nat) (c : Client), L.Nodup →
      id ∈ L → w.conn id = some c → c.closed = false →
      c.send.length < c.cap →
      (L.foldl (broadcastOne f) w).conn id
        = some { c with send := c.send ++ [f] } := by
  intro L
  induction L with
  | nil =>
    intro w id c _ hmem
    cases hmem
  | cons x rest ih =>
    intro w id c hnd hmem hc hopen hcap
    by_cases hx : x = id
    · subst hx
      have hnotin : x ∉ rest := (List.nodup_cons.mp hnd).1
      have hts : trySend c f = .sent { c with send := c.send ++ [f] } := by
        simp [trySend, hopen, hcap]
      have hstep : broadcastOne f w x
          = w.setConn x { c with send := c.send ++ [f] } := by
        simp [broadcastOne, hc, hts]
      simp only [List.foldl_cons]
      rw [hstep, foldl_broadcastOne_not_mem f rest _ hnotin, conn_setConn_self]
    · have hxid : id ≠ x := fun he => hx (he ▸ rfl)
      have hmem2 : id ∈ rest := by
        rcases List.mem_cons.mp hmem with he | h2
        · exact absurd he.symm hx
        · exact h2
      simp only [List.foldl_cons]
      exact ih (broadcastOne f w x) id c (List.nodup_cons.mp hnd).2 hmem2
        (by rw [broadcastOne_conn_ne f hxid, hc]) hopen hcap

/-- C4: the broadcast case of the `Run` loop iterates over the set of
clients registered when the message is taken (the snapshot): every
registered connection whose queue is open and has room gets the event
appended to its queue exactly once — even when other connections are
concurrently evicted for backpressure — and every connection not in
the snapshot (e.g. one registering afterwards) is left exactly as it
was, so it neither receives the event nor receives it twice. -/
theorem C4_broadcast_delivery (w : World) (f : Frame)
    (hnd : w.hub.clients.Nodup) :
    (∀ id c, id ∈ w.hub.clients → w.conn id = some c → c.closed = false →
       c.send.length < c.cap →
       (broadcastStep w f).conn id = some { c with send := c.send ++ [f] }) ∧
    (∀ id2, id2 ∉ w.hub.clients → (broadcastStep w f).conn id2 = w.conn id2) := by
  constructor
  · intro id c hmem hc hopen hcap
    exact foldl_broadcastOne_delivers f w.hub.clients w id c hnd hmem hc hopen hcap
  · intro id2 h
    exact foldl_broadcastOne_not_mem f w.hub.clients w h

def c4a : Client := ⟨"u1", "alice", 4, [], false, 0⟩

/-- A slow client: queue of capacity 1, already full. -/
def c4b : Client := ⟨"u2", "bob", 1, [Frame.pong "ok"], false, 0⟩

def c4c : Client := ⟨"u3", "carol", 4, [], false, 0⟩

/-- A client value not registered in the hub (it registers only after
the broadcast snapshot). -/
def c4d : Client := ⟨"u4", "dave", 4, [], false, 0⟩

def w4 : World :=
  ⟨⟨[1, 2, 3], [("u1", 1), ("u2", 2), ("u3", 3)],
    [("alice", 1), ("bob", 2), ("carol", 3)]⟩,
   [(1, c4a), (2, c4b), (3, c4c), (4, c4d)], false⟩

def f4 : Frame := Frame.message ⟨"x", "hello", "", ""⟩

/-- Witness for `C4_broadcast_delivery`: clients 1 and 3 (queues with
room) each receive the frame exactly once even though client 2 between
them is evicted for backpressure, and the unregistered client 4 is
untouched. -/
theorem C4_broadcast_delivery_witness :
    (broadcastStep w4 f4).conn 1 = some { c4a with send := [f4] } ∧
    (broadcastStep w4 f4).conn 3 = some { c4c with send := [f4] } ∧
    (broadcastStep w4 f4).conn 4 = w4.conn 4 := by
  have h := C4_broadcast_delivery w4 f4 (by decide)
  refine ⟨?_, ?_, h.2 4 (by decide)⟩
  · simpa using h.1 1 c4a (by decide) (by decide) (by decide) (by decide)
  · simpa using h.1 3 c4c (by decide) (by decide) (by decide) (by decide)

/-! ## Claim C5 — idempotent teardown -/

/-- A registered client whose outbound queue (capacity 1) is full. -/
def c5full : Client := ⟨"u1", "alice", 1, [Frame.pong "ok"], false, 0⟩

/-- Consistent hub state holding only that client. -/
def w5pre : World := ⟨⟨[1], [("u1", 1)], [("alice", 1)]⟩, [(1, c5full)], false⟩

/-- C5 (code bug): one loop closing while the other unregisters
double-closes the queue.  `handlePing` on a full queue executes
`close(c.send)` without removing the client from the hub, so the
subsequent hub `unregister` (still finding the client in `h.clients`)
closes the already-closed channel: the close counter reaches 2 and the
process panics (`close of closed channel`), contradicting
exactly-once cleanup. -/
theorem C5_double_close_panics :
    ((unregisterStep (handlePing w5pre 1) 1).conn 1).map Client.closeCount
      = some 2 ∧
    (unregisterStep (handlePing w5pre 1) 1).panicked = true := by decide

/-! ## Claim C8 — registration confirmation payload -/

/-- A client whose stable identifier and display name differ. -/
def c8reg : Client := ⟨"u1", "alice", 4, [], false, 0⟩

/-- Empty hub with that client allocated. -/
def w8pre : World := ⟨⟨[], [], []⟩, [(1, c8reg)], false⟩

/-- C8 (code bug): the confirmation enqueued on registration carries
`"user_id": client.Username` — for a client with `UserID = "u1"` and
`Username = "alice"` the queued frame is
`{"type":"connection","status":"connected","user_id":"alice",
"username":"alice"}`, not the claimed frame with `user_id = "u1"`. -/
theorem C8_user_id_is_username :
    ((registerStep w8pre 1).conn 1).map Client.send
      = some [Frame.connection "connected" "alice" "alice"] ∧
    ((registerStep w8pre 1).conn 1).map Client.send
      ≠ some [Frame.connection "connected" "u1" "alice"] := by decide

/-! ## Claim C9 — sendToRoom is broadcast -/

/-- C9: `SendToRoom` is observably identical to `BroadcastMessage` for
every room id, message and hub state — the room id is ignored and the
whole-world effect (every connection's queue, the registry, the panic
flag) is exactly that of the broadcast case of the `Run` loop on the
wrapped message. -/
theorem C9_SendToRoom_is_broadcast :
    ∀ (w : World) (roomID : String) (m : Message),
      SendToRoom w roomID m = BroadcastMessage w m ∧
      SendToRoom w roomID m = broadcastStep w (Frame.message m) :=
  fun _ _ _ => ⟨rfl, rfl⟩

/-! ## Claim C10 — unknown inbound frame types -/

/-- C10: an inbound frame that decodes to a type other than
`"message"` and `"ping"` hits the `default` case of `readPump`'s type
switch: no outbound event is produced, no hub or connection state
changes (the resulting world is the original one), and the read loop
continues. -/
theorem C10_unknown_type_noop (w : World) (id : Nat) (msg : IncomingMessage)
    (persist : Except String Message) (h1 : msg.type ≠ "message")
    (h2 : msg.type ≠ "ping") :
    handleIncoming w id msg persist = w := by
  simp [handleIncoming, h1, h2]

/-- A registered client for the C10 witness. -/
def w10 : World :=
  ⟨⟨[1], [("u1", 1)], [("alice", 1)]⟩, [(1, ⟨"u1", "alice", 4, [], false, 0⟩)], false⟩

/-- Witness for `C10_unknown_type_noop`: a `"subscribe"` frame leaves
the world unchanged. -/
theorem C10_unknown_type_noop_witness :
    handleIncoming w10 1 ⟨"subscribe", "x", "", ""⟩ (.error "e") = w10 :=
  C10_unknown_type_noop w10 1 ⟨"subscribe", "x", "", ""⟩ (.error "e")
    (by decide) (by decide)

/-! ## Claim C6 — per-connection FIFO ordering -/

/-- The coalescing loop takes the whole remaining buffer, in order. -/
theorem drainN_all : ∀ (q : List Frame), drainN q.length q = (q, []) := by
  intro q
  induction q with
  | nil => rfl
  | cons f rest ih => simp [drainN, ih]

/-- One message-case iteration writes the entire buffered queue as one
physical write, in queue order. -/
theorem writeIteration_cons (f : Frame) (rest : List Frame) :
    writeIteration (f :: rest) = some (f :: rest, []) := by
  simp [writeIteration, drainN_all]

/-- Run invariant of the write loop: the frames already written to the
transport followed by the frames still buffered are exactly the initial
buffer followed by the enqueues, in order. -/
theorem wrun_out_append : ∀ (acts : List WAction) (s : WState),
    (wrun s acts).out ++ (wrun s acts).q = s.out ++ s.q ++ enqueued acts := by
  intro acts
  induction acts with
  | nil => intro s; simp [wrun, enqueued]
  | cons a rest ih =>
    intro s
    cases a with
    | enq f =>
      show (wrun (wstep s (.enq f)) rest).out ++ (wrun (wstep s (.enq f)) rest).q
          = s.out ++ s.q ++ enqueued (.enq f :: rest)
      rw [ih (wstep s (.enq f))]
      simp [wstep, enqueued]
    | write =>
      show (wrun (wstep s .write) rest).out ++ (wrun (wstep s .write) rest).q
          = s.out ++ s.q ++ enqueued (.write :: rest)
      rw [ih (wstep s .write)]
      have hsame : (wstep s .write).out ++ (wstep s .write).q = s.out ++ s.q := by
        cases hq : s.q with
        | nil => simp [wstep, writeIteration, hq]
        | cons f restq => simp [wstep, hq, writeIteration_cons]
      calc (wstep s .write).out ++ (wstep s .write).q ++ enqueued rest
          = ((wstep s .write).out ++ (wstep s .write).q) ++ enqueued rest := by
            simp [List.append_assoc]
        _ = (s.out ++ s.q) ++ enqueued rest := by rw [hsame]
        _ = s.out ++ s.q ++ enqueued rest := by simp [List.append_assoc]

/-- C6: starting from an empty channel, for every interleaving of
producer enqueues and write-loop iterations, the frames written to the
transport followed by the frames still queued are exactly the enqueued
frames in enqueue order — the transport receives a prefix of the
enqueue sequence, strictly FIFO, and the coalescing of buffered frames
into one physical write preserves that order. -/
theorem C6_write_fifo : ∀ (acts : List WAction),
    (wrun ⟨[], []⟩ acts).out ++ (wrun ⟨[], []⟩ acts).q = enqueued acts := by
  intro acts
  simpa using wrun_out_append acts ⟨[], []⟩

/-! ## Claim C7 — read-loop message routing -/

def c7alice : Client := ⟨"u1", "alice", 4, [], false, 0⟩

def c7bob : Client := ⟨"u2", "bob", 4, [], false, 0⟩

/-- Alice and Bob both registered; stable ids differ from display
names. -/
def w7 : World :=
  ⟨⟨[1, 2], [("u1", 1), ("u2", 2)], [("alice", 1), ("bob", 2)]⟩,
   [(1, c7alice), (2, c7bob)], false⟩

def msg7 : IncomingMessage := ⟨"message", "hi", "bob", ""⟩

def saved7 : Message := ⟨"alice", "hi", "bob", ""⟩

/-- C7 (counterexample): for a direct message the code routes the
recipient copy through the *display-name* index, not through
`sendToUser` as the claim states: at this input `SendToUser w7 "bob"`
finds no connection (the user-ID index has no key `"bob"`), returns
`false` and changes nothing — yet `handleMessage` does deliver exactly
one `direct_message` frame to Bob's connection (and one echo to
Alice's), so the fan-out cannot be `sendToUser(recipient)`. -/
theorem C7_counterexample :
    (SendToUser w7 "bob" saved7).2 = false ∧
    (SendToUser w7 "bob" saved7).1 = w7 ∧
    ((handleMessage w7 1 msg7 (.ok saved7)).conn 2).map Client.send
      = some [Frame.directMessage saved7] ∧
    ((handleMessage w7 1 msg7 (.ok saved7)).conn 1).map Client.send
      = some [Frame.directMessage saved7] := by decide

/-- C7 (amended): for every decoded `"message"` event, persistence is
invoked first and fan-out happens only if persistence succeeds, via
exactly one of: `SendToRoom` when a room is specified; else
`SendToUsername(recipient)` followed by `SendToUsername(sender)` when a
recipient is specified — both the recipient copy and the sender echo
are keyed by display name, not by stable user id; else
`BroadcastMessage`.  On persistence failure, when the originating
connection's queue is open and has room, the typed error event is
appended only to that connection's own queue and the whole rest of the
world (registry and every other connection) is unchanged. -/
theorem C7_handleMessage_routing (w : World) (id : Nat)
    (msg : IncomingMessage) :
    (∀ e c, w.conn id = some c → c.closed = false → c.send.length < c.cap →
       handleMessage w id msg (.error e)
         = w.setConn id { c with send := c.send ++ [Frame.error "Failed to save message"] }) ∧
    (∀ saved c, w.conn id = some c → msg.roomID ≠ "" →
       handleMessage w id msg (.ok saved) = SendToRoom w msg.roomID saved) ∧
    (∀ saved c, w.conn id = some c → msg.roomID = "" → msg.recipient ≠ "" →
       handleMessage w id msg (.ok saved)
         = (SendToUsername ((SendToUsername w msg.recipient saved).1)
              c.Username saved).1) ∧
    (∀ saved c, w.conn id = some c → msg.roomID = "" → msg.recipient = "" →
       handleMessage w id msg (.ok saved) = BroadcastMessage w saved) := by
  refine ⟨?_, ?_, ?_, ?_⟩
  · intro e c hc hopen hcap
    simp [handleMessage, hc, trySend, hopen, hcap]
  · intro saved c hc hroom
    simp [handleMessage, hc, hroom]
  · intro saved c hc hroom hrec
    simp [handleMessage, hc, hroom, hrec]
  · intro saved c hc hroom hrec
    simp [handleMessage, hc, hroom, hrec]

def msgGlobal : IncomingMessage := ⟨"message", "hi", "", ""⟩

def msgRoom : IncomingMessage := ⟨"message", "hi", "", "r1"⟩

/-- Witness for `C7_handleMessage_routing` at the world of Alice and
Bob: persistence failure touches only Alice's own queue; a room
message goes through `SendToRoom`; a direct message goes through the
two `SendToUsername` calls; a bare message goes through
`BroadcastMessage`. -/
theorem C7_handleMessage_routing_witness :
    handleMessage w7 1 msg7 (.error "db down")
      = w7.setConn 1 { c7alice with send := [Frame.error "Failed to save message"] } ∧
    handleMessage w7 1 msgRoom (.ok saved7) = SendToRoom w7 "r1" saved7 ∧
    handleMessage w7 1 msg7 (.ok saved7)
      = (SendToUsername ((SendToUsername w7 "bob" saved7).1) "alice" saved7).1 ∧
    handleMessage w7 1 msgGlobal (.ok saved7) = BroadcastMessage w7 saved7 := by
  have h := C7_handleMessage_routing w7 1 msg7
  have hr := C7_handleMessage_routing w7 1 msgRoom
  have hg := C7_handleMessage_routing w7 1 msgGlobal
  refine ⟨?_, ?_, ?_, ?_⟩
  · simpa using h.1 "db down" c7alice (by decide) (by decide) (by decide)
  · simpa using hr.2.1 saved7 c7alice (by decide) (by decide)
  · simpa using h.2.2.1 saved7 c7alice (by decide) (by decide) (by decide)
  · simpa using hg.2.2.2 saved7 c7alice (by decide) (by decide) (by decide)

end ChatApi
